import Mathlib

/-
Verification of the quaternion library in src/src/lib.rs.

The library stores four f64 components and implements the Hamilton product,
conjugation, inversion, norms, normalization, a component-wise scalar
division, IEEE-754 component-wise equality, and a Display form.

Embedding strategy:
* The algebraic operations are embedded over an arbitrary field, idealizing
  f64 arithmetic as exact arithmetic; theorems instantiate the field at the
  rationals (decidable) or the reals (where a square root is needed).
* Behavior that is specific to IEEE-754 special values (NaN and Infinity
  produced by division by zero, NaN-aware equality) is embedded a second
  time over an explicit model F64 of floating-point values with exact
  finite arithmetic and the IEEE rules for NaN, +Infinity and -Infinity.
  The claims that use this model only exercise it at inputs where f64
  arithmetic is itself exact.
-/

namespace QLib

/-- The Quaternion struct of the library: fields qr, qi, qj, qk. -/
structure Quaternion (α : Type) where
  qr : α
  qi : α
  qj : α
  qk : α
deriving DecidableEq, Repr

variable {α : Type} [Field α]

/-- Quaternion::new — stores the four components verbatim. -/
def Quaternion.new (qr qi qj qk : α) : Quaternion α := ⟨qr, qi, qj, qk⟩

/-- Quaternion::real. -/
def Quaternion.real (q : Quaternion α) : α := q.qr

/-- Quaternion::imaginary. -/
def Quaternion.imaginary (q : Quaternion α) : α × α × α := (q.qi, q.qj, q.qk)

/-- Quaternion::square_norm. -/
def Quaternion.square_norm (q : Quaternion α) : α :=
  q.qr * q.qr + q.qi * q.qi + q.qj * q.qj + q.qk * q.qk

/-- Quaternion::conjugate. -/
def Quaternion.conjugate (q : Quaternion α) : Quaternion α :=
  Quaternion.new q.qr (-q.qi) (-q.qj) (-q.qk)

/-- Quaternion::inverse. -/
def Quaternion.inverse (q : Quaternion α) : Quaternion α :=
  let q_conjugate := q.conjugate
  let inverse_scalar := 1 / q.square_norm
  Quaternion.new (q_conjugate.qr * inverse_scalar) (q_conjugate.qi * inverse_scalar)
    (q_conjugate.qj * inverse_scalar) (q_conjugate.qk * inverse_scalar)

/-- impl Add for Quaternion. -/
def Quaternion.add (a other : Quaternion α) : Quaternion α :=
  Quaternion.new (a.qr + other.qr) (a.qi + other.qi) (a.qj + other.qj) (a.qk + other.qk)

/-- impl Mul for Quaternion — the Hamilton product as written in the source. -/
def Quaternion.mul (a other : Quaternion α) : Quaternion α :=
  let qr := a.qr * other.qr - a.qi * other.qi - a.qj * other.qj - a.qk * other.qk
  let qi := a.qr * other.qi + a.qi * other.qr + a.qj * other.qk - a.qk * other.qj
  let qj := a.qr * other.qj - a.qi * other.qk + a.qj * other.qr + a.qk * other.qi
  let qk := a.qr * other.qk + a.qi * other.qj - a.qj * other.qi + a.qk * other.qr
  Quaternion.new qr qi qj qk

/-- impl Mul of Quaternion by an f64 scalar p. -/
def Quaternion.mulScalar (a : Quaternion α) (p : α) : Quaternion α :=
  Quaternion.new (a.qr * p) (a.qi * p) (a.qj * p) (a.qk * p)

/-- impl Div of an f64 by a Quaternion — the component-wise scalar division. -/
def scalarDiv (s : α) (other : Quaternion α) : Quaternion α :=
  Quaternion.new (s / other.qr) (-s / other.qi) (-s / other.qj) (-s / other.qk)

/-- The DEFAULT_TOLERANCE constant of the library, 1e-8, as an exact rational. -/
def DEFAULT_TOLERANCE : ℚ := 1 / 10 ^ 8

/-- Quaternion::norm — sqrt of the square norm, over the reals. -/
noncomputable def Quaternion.norm (q : Quaternion ℝ) : ℝ := Real.sqrt q.square_norm

/-- Quaternion::normalized — each component divided by the norm, over the reals. -/
noncomputable def Quaternion.normalized (q : Quaternion ℝ) : Quaternion ℝ :=
  ⟨q.qr / q.norm, q.qi / q.norm, q.qj / q.norm, q.qk / q.norm⟩

end QLib

/-- A model of IEEE-754 binary64 values: finite values carried as exact
rationals (no rounding), plus the special values +Infinity, -Infinity and
NaN. The claims that use this model exercise finite arithmetic only at
inputs where f64 arithmetic is itself exact. -/
inductive F64 : Type where
  | fin (x : ℚ)
  | inf
  | ninf
  | nan
deriving DecidableEq, Repr

namespace F64

/-- IEEE negation. -/
def neg : F64 → F64
  | fin x => fin (-x)
  | inf => ninf
  | ninf => inf
  | nan => nan

/-- IEEE addition (finite part exact): opposite infinities give NaN. -/
def add : F64 → F64 → F64
  | nan, _ => nan
  | _, nan => nan
  | fin a, fin b => fin (a + b)
  | fin _, inf => inf
  | fin _, ninf => ninf
  | inf, fin _ => inf
  | ninf, fin _ => ninf
  | inf, inf => inf
  | ninf, ninf => ninf
  | inf, ninf => nan
  | ninf, inf => nan

/-- IEEE multiplication (finite part exact): zero times infinity gives NaN. -/
def mul : F64 → F64 → F64
  | nan, _ => nan
  | _, nan => nan
  | fin a, fin b => fin (a * b)
  | fin a, inf => if a = 0 then nan else if 0 < a then inf else ninf
  | fin a, ninf => if a = 0 then nan else if 0 < a then ninf else inf
  | inf, fin b => if b = 0 then nan else if 0 < b then inf else ninf
  | ninf, fin b => if b = 0 then nan else if 0 < b then ninf else inf
  | inf, inf => inf
  | inf, ninf => ninf
  | ninf, inf => ninf
  | ninf, ninf => inf

/-- IEEE division (finite part exact, zero treated as +0): a nonzero finite
value divided by zero gives a signed infinity, zero divided by zero gives
NaN, infinity divided by infinity gives NaN. -/
def div : F64 → F64 → F64
  | nan, _ => nan
  | _, nan => nan
  | fin a, fin b =>
      if b = 0 then (if a = 0 then nan else if 0 < a then inf else ninf)
      else fin (a / b)
  | fin _, inf => fin 0
  | fin _, ninf => fin 0
  | inf, fin b => if 0 ≤ b then inf else ninf
  | ninf, fin b => if 0 ≤ b then ninf else inf
  | inf, inf => nan
  | inf, ninf => nan
  | ninf, inf => nan
  | ninf, ninf => nan

/-- IEEE square root: NaN for negative inputs, exact on perfect squares.
Rat.sqrt is exact on squares of rationals; the claims only evaluate this
function at such inputs (in particular at 0 and 1), where f64 sqrt is also
exact. -/
def sqrt : F64 → F64
  | nan => nan
  | inf => inf
  | ninf => nan
  | fin x => if x < 0 then nan else fin (Rat.sqrt x)

/-- IEEE equality, the semantics of f64 PartialEq in Rust: NaN compares
unequal to every value, including itself. -/
def beq : F64 → F64 → Bool
  | fin a, fin b => a == b
  | inf, inf => true
  | ninf, ninf => true
  | _, _ => false

/-- True exactly on NaN. -/
def isNaN : F64 → Bool
  | nan => true
  | _ => false

/-- True exactly on finite values (neither infinite nor NaN). -/
def isFinite : F64 → Bool
  | fin _ => true
  | _ => false

end F64

namespace FPModel

/-- Quaternion::square_norm over the F64 model, with the left-to-right
association of the source expression. -/
def square_norm (q : QLib.Quaternion F64) : F64 :=
  (((q.qr.mul q.qr).add (q.qi.mul q.qi)).add (q.qj.mul q.qj)).add (q.qk.mul q.qk)

/-- Quaternion::norm over the F64 model. -/
def norm (q : QLib.Quaternion F64) : F64 :=
  (square_norm q).sqrt

/-- Quaternion::normalized over the F64 model: each component divided by the
norm, with no guard for the zero quaternion — the function is total and
returns whatever IEEE division produces. -/
def normalized (q : QLib.Quaternion F64) : QLib.Quaternion F64 :=
  ⟨q.qr.div (norm q), q.qi.div (norm q), q.qj.div (norm q), q.qk.div (norm q)⟩

/-- impl Div of an f64 by a Quaternion, over the F64 model: the first
component is s divided by qr, the rest are the negation of s divided by the
matching component. -/
def scalarDiv (s : F64) (other : QLib.Quaternion F64) : QLib.Quaternion F64 :=
  ⟨s.div other.qr, (s.neg).div other.qi, (s.neg).div other.qj, (s.neg).div other.qk⟩

/-- impl PartialEq for Quaternion over the F64 model: exact component-wise
IEEE equality, no tolerance. -/
def qeq (a other : QLib.Quaternion F64) : Bool :=
  a.qr.beq other.qr && a.qi.beq other.qi && a.qj.beq other.qj && a.qk.beq other.qk

end FPModel

/-- Display of an f64 with default formatting, modelled from Rust std fmt
semantics (outside this repository) for integral values, the only values the
spec examples use: an integral f64 renders with no decimal point and no
forced sign. -/
def fmtF64 (x : ℤ) : String := toString x

/-- Display of an f64 with the plus flag, modelled from Rust std fmt
semantics for integral values: an explicit leading + for nonnegative values,
the usual leading - for negative values. -/
def fmtF64plus (x : ℤ) : String := if 0 ≤ x then "+" ++ toString x else toString x

/-- impl Display for Quaternion: the real part with no forced sign, then
each imaginary part with a forced sign followed by its basis letter. -/
def display (q : QLib.Quaternion ℤ) : String :=
  fmtF64 q.qr ++ fmtF64plus q.qi ++ "i" ++ fmtF64plus q.qj ++ "j" ++ fmtF64plus q.qk ++ "k"

section Helpers

variable {α : Type} [LinearOrderedField α]

/-- The square norm is a sum of squares, hence nonnegative. -/
theorem QLib.Quaternion.square_norm_nonneg (q : QLib.Quaternion α) : 0 ≤ q.square_norm := by
  have h1 := mul_self_nonneg q.qr
  have h2 := mul_self_nonneg q.qi
  have h3 := mul_self_nonneg q.qj
  have h4 := mul_self_nonneg q.qk
  unfold QLib.Quaternion.square_norm
  linarith

/-- The square norm vanishes exactly on the all-zero quaternion. -/
theorem QLib.Quaternion.square_norm_eq_zero_iff (q : QLib.Quaternion α) :
    q.square_norm = 0 ↔ q.qr = 0 ∧ q.qi = 0 ∧ q.qj = 0 ∧ q.qk = 0 := by
  unfold QLib.Quaternion.square_norm
  constructor
  · intro h
    have h1 := mul_self_nonneg q.qr
    have h2 := mul_self_nonneg q.qi
    have h3 := mul_self_nonneg q.qj
    have h4 := mul_self_nonneg q.qk
    refine ⟨?_, ?_, ?_, ?_⟩ <;> [skip; skip; skip; skip] <;>
      first
        | exact mul_self_eq_zero.mp (by linarith)
  · rintro ⟨hr, hi, hj, hk⟩
    rw [hr, hi, hj, hk]
    ring

end Helpers

/-- Map from the embedded library quaternions to the Mathlib quaternions over ℚ. -/
def toH (q : QLib.Quaternion ℚ) : Quaternion ℚ :=
  QuaternionAlgebra.mk q.qr q.qi q.qj q.qk

/-- Claim C1: multiplication is the Hamilton product, with exactly the sign
pattern and operand order of the spec formula; moreover the embedded product
agrees with the independent Mathlib quaternion multiplication under toH. -/
theorem mul_hamilton_product_c1 (a b : QLib.Quaternion ℚ) :
    (a.mul b).qr = a.qr * b.qr - a.qi * b.qi - a.qj * b.qj - a.qk * b.qk ∧
    (a.mul b).qi = a.qr * b.qi + a.qi * b.qr + a.qj * b.qk - a.qk * b.qj ∧
    (a.mul b).qj = a.qr * b.qj - a.qi * b.qk + a.qj * b.qr + a.qk * b.qi ∧
    (a.mul b).qk = a.qr * b.qk + a.qi * b.qj - a.qj * b.qi + a.qk * b.qr ∧
    toH (a.mul b) = toH a * toH b := by
  refine ⟨rfl, rfl, rfl, rfl, ?_⟩
  ext <;>
    simp [toH, QLib.Quaternion.mul, QLib.Quaternion.new, Quaternion.mul_re,
      Quaternion.mul_imI, Quaternion.mul_imJ, Quaternion.mul_imK]

/-- Claim C2: scalar-over-quaternion division is the component-wise operation
(s divided by qr, then minus s divided by each imaginary component); it
differs from scaling the inverse by s at an explicit input even though that
input has nonzero square norm; and in the F64 model a zero component of the
divisor makes the matching slot of the result non-finite (Infinity or NaN). -/
theorem scalar_div_componentwise_c2 :
    (∀ (s : ℚ) (q : QLib.Quaternion ℚ),
      QLib.scalarDiv s q = ⟨s / q.qr, -s / q.qi, -s / q.qj, -s / q.qk⟩) ∧
    (∃ (s : ℚ) (q : QLib.Quaternion ℚ),
      q.square_norm ≠ 0 ∧ QLib.scalarDiv s q ≠ (q.inverse).mulScalar s) ∧
    (∀ (s : ℚ) (q : QLib.Quaternion F64),
      (q.qr = F64.fin 0 → ((FPModel.scalarDiv (F64.fin s) q).qr).isFinite = false) ∧
      (q.qi = F64.fin 0 → ((FPModel.scalarDiv (F64.fin s) q).qi).isFinite = false) ∧
      (q.qj = F64.fin 0 → ((FPModel.scalarDiv (F64.fin s) q).qj).isFinite = false) ∧
      (q.qk = F64.fin 0 → ((FPModel.scalarDiv (F64.fin s) q).qk).isFinite = false)) := by
  refine ⟨fun s q => rfl, ⟨1, ⟨1, 1, 1, 1⟩, ?_, ?_⟩, ?_⟩
  · norm_num [QLib.Quaternion.square_norm]
  · norm_num [QLib.scalarDiv, QLib.Quaternion.inverse, QLib.Quaternion.conjugate,
      QLib.Quaternion.mulScalar, QLib.Quaternion.square_norm, QLib.Quaternion.new,
      QLib.Quaternion.mk.injEq]
  · intro s q
    refine ⟨?_, ?_, ?_, ?_⟩ <;> intro h <;>
      simp only [FPModel.scalarDiv, F64.neg, h, F64.div] <;>
      split_ifs <;> rfl

/-- Witness for claim C2: at s = 5 and divisor (0, 0, 0, 0), each hypothesis
of the non-finiteness part holds and every slot of the result is non-finite. -/
theorem scalar_div_componentwise_c2_witness :
    ((⟨F64.fin 0, F64.fin 0, F64.fin 0, F64.fin 0⟩ : QLib.Quaternion F64).qr = F64.fin 0) ∧
    ((FPModel.scalarDiv (F64.fin 5) ⟨F64.fin 0, F64.fin 0, F64.fin 0, F64.fin 0⟩).qr).isFinite = false ∧
    ((FPModel.scalarDiv (F64.fin 5) ⟨F64.fin 0, F64.fin 0, F64.fin 0, F64.fin 0⟩).qi).isFinite = false ∧
    ((FPModel.scalarDiv (F64.fin 5) ⟨F64.fin 0, F64.fin 0, F64.fin 0, F64.fin 0⟩).qj).isFinite = false ∧
    ((FPModel.scalarDiv (F64.fin 5) ⟨F64.fin 0, F64.fin 0, F64.fin 0, F64.fin 0⟩).qk).isFinite = false :=
  ⟨rfl,
    (scalar_div_componentwise_c2.2.2 5 ⟨F64.fin 0, F64.fin 0, F64.fin 0, F64.fin 0⟩).1 rfl,
    (scalar_div_componentwise_c2.2.2 5 ⟨F64.fin 0, F64.fin 0, F64.fin 0, F64.fin 0⟩).2.1 rfl,
    (scalar_div_componentwise_c2.2.2 5 ⟨F64.fin 0, F64.fin 0, F64.fin 0, F64.fin 0⟩).2.2.1 rfl,
    (scalar_div_componentwise_c2.2.2 5 ⟨F64.fin 0, F64.fin 0, F64.fin 0, F64.fin 0⟩).2.2.2 rfl⟩

/-- Claim C5: the inverse is the conjugate with every component scaled by the
reciprocal of the square norm, and the inverse of (1, 2, 3, 4) is exactly
(1/30, -2/30, -3/30, -4/30). (Components modelled as exact rationals; the
f64 computation at this input rounds each quotient to the nearest f64, which
is what the repository test asserts.) -/
theorem inverse_formula_c5 :
    (∀ q : QLib.Quaternion ℚ,
      q.inverse = ⟨q.conjugate.qr * (1 / q.square_norm), q.conjugate.qi * (1 / q.square_norm),
        q.conjugate.qj * (1 / q.square_norm), q.conjugate.qk * (1 / q.square_norm)⟩) ∧
    QLib.Quaternion.inverse ⟨1, 2, 3, 4⟩ = (⟨1/30, -2/30, -3/30, -4/30⟩ : QLib.Quaternion ℚ) := by
  refine ⟨fun q => rfl, ?_⟩
  norm_num [QLib.Quaternion.inverse, QLib.Quaternion.conjugate, QLib.Quaternion.square_norm,
    QLib.Quaternion.new, QLib.Quaternion.mk.injEq]

/-- Claim C3: for every quaternion q, square_norm q is nonnegative, and it is
zero exactly when q is the all-zero quaternion. (Components modelled as exact
rationals; all model values are finite.) -/
theorem square_norm_nonneg_eq_zero_iff_c3 (q : QLib.Quaternion ℚ) :
    0 ≤ q.square_norm ∧ (q.square_norm = 0 ↔ q = ⟨0, 0, 0, 0⟩) := by
  refine ⟨QLib.Quaternion.square_norm_nonneg q, ?_⟩
  rw [QLib.Quaternion.square_norm_eq_zero_iff]
  constructor
  · rintro ⟨hr, hi, hj, hk⟩
    cases q
    simp_all
  · rintro rfl
    exact ⟨rfl, rfl, rfl, rfl⟩

/-- Claim C7: multiplication of the pure-imaginary units i and j gives k one
way and minus k the other way, so quaternion multiplication does not commute. -/
theorem mul_i_j_noncommutative_c7 :
    QLib.Quaternion.mul ⟨0, 1, 0, 0⟩ ⟨0, 0, 1, 0⟩ = (⟨0, 0, 0, 1⟩ : QLib.Quaternion ℚ) ∧
    QLib.Quaternion.mul ⟨0, 0, 1, 0⟩ ⟨0, 1, 0, 0⟩ = (⟨0, 0, 0, -1⟩ : QLib.Quaternion ℚ) := by
  constructor <;> norm_num [QLib.Quaternion.mul, QLib.Quaternion.new, QLib.Quaternion.mk.injEq]

/-- Claim C8: conjugation negates the three imaginary parts and keeps the real
part, and applying it twice returns the original quaternion. -/
theorem conjugate_involution_c8 (a : QLib.Quaternion ℚ) :
    a.conjugate = ⟨a.qr, -a.qi, -a.qj, -a.qk⟩ ∧ a.conjugate.conjugate = a := by
  refine ⟨rfl, ?_⟩
  cases a
  simp [QLib.Quaternion.conjugate, QLib.Quaternion.new]

/-- An F64 value satisfies isNaN exactly when it is the NaN constructor. -/
theorem F64.isNaN_iff (x : F64) : x.isNaN = true ↔ x = F64.nan := by
  cases x <;> simp [F64.isNaN]

/-- Claim C6: normalizing the all-zero quaternion divides each zero component
by the zero norm, so every component of the result is NaN; the modelled
function is total and returns this value rather than signalling an error. -/
theorem normalized_zero_all_nan_c6 :
    FPModel.normalized ⟨F64.fin 0, F64.fin 0, F64.fin 0, F64.fin 0⟩ =
      ⟨F64.nan, F64.nan, F64.nan, F64.nan⟩ := by
  norm_num [FPModel.normalized, FPModel.norm, FPModel.square_norm,
    F64.mul, F64.add, F64.sqrt, F64.div]

/-- Claim C9: the display form is the real part with no forced sign followed
by each imaginary part with an explicit sign and its basis letter;
(1, 2, 3, 4) renders as 1+2i+3j+4k and (1, -2, 3, -4) as 1-2i+3j-4k. -/
theorem display_format_c9 :
    (∀ q : QLib.Quaternion ℤ,
      display q = fmtF64 q.qr ++ fmtF64plus q.qi ++ "i" ++ fmtF64plus q.qj ++ "j" ++
        fmtF64plus q.qk ++ "k") ∧
    display ⟨1, 2, 3, 4⟩ = "1+2i+3j+4k" ∧
    display ⟨1, -2, 3, -4⟩ = "1-2i+3j-4k" := by
  refine ⟨fun q => rfl, ?_, ?_⟩ <;> rfl

/-- Claim C10: component-wise IEEE equality is not reflexive: a quaternion
with at least one NaN component compares unequal to itself, with no tolerance
involved. -/
theorem eq_not_reflexive_on_nan_c10 (q : QLib.Quaternion F64)
    (h : q.qr.isNaN = true ∨ q.qi.isNaN = true ∨ q.qj.isNaN = true ∨ q.qk.isNaN = true) :
    FPModel.qeq q q = false := by
  rcases q with ⟨qr, qi, qj, qk⟩
  rcases h with h | h | h | h <;> rw [F64.isNaN_iff] at h <;> subst h <;>
    simp [FPModel.qeq, F64.beq]

/-- Witness for claim C10: the quaternion with NaN real part and finite
imaginary parts is unequal to itself. -/
theorem eq_not_reflexive_on_nan_c10_witness :
    ((⟨F64.nan, F64.fin 1, F64.fin 2, F64.fin 3⟩ : QLib.Quaternion F64).qr.isNaN = true ∨
      (⟨F64.nan, F64.fin 1, F64.fin 2, F64.fin 3⟩ : QLib.Quaternion F64).qi.isNaN = true ∨
      (⟨F64.nan, F64.fin 1, F64.fin 2, F64.fin 3⟩ : QLib.Quaternion F64).qj.isNaN = true ∨
      (⟨F64.nan, F64.fin 1, F64.fin 2, F64.fin 3⟩ : QLib.Quaternion F64).qk.isNaN = true) ∧
    FPModel.qeq ⟨F64.nan, F64.fin 1, F64.fin 2, F64.fin 3⟩
      ⟨F64.nan, F64.fin 1, F64.fin 2, F64.fin 3⟩ = false :=
  ⟨Or.inl rfl,
    eq_not_reflexive_on_nan_c10 ⟨F64.nan, F64.fin 1, F64.fin 2, F64.fin 3⟩ (Or.inl rfl)⟩

/-- Claim C4 (amended): for a non-zero quaternion, normalized divides each
component by the norm and the norm of the result is 1, hence within the
1e-8 tolerance of 1; in exact arithmetic it is exactly 1. -/
theorem normalized_norm_one_c4 (q : QLib.Quaternion ℝ)
    (h : ¬(q.qr = 0 ∧ q.qi = 0 ∧ q.qj = 0 ∧ q.qk = 0)) :
    q.normalized = ⟨q.qr / q.norm, q.qi / q.norm, q.qj / q.norm, q.qk / q.norm⟩ ∧
    q.normalized.norm = 1 ∧
    |q.normalized.norm - 1| < (QLib.DEFAULT_TOLERANCE : ℝ) := by
  have hsn0 : q.square_norm ≠ 0 := by
    rw [ne_eq, QLib.Quaternion.square_norm_eq_zero_iff]
    exact h
  have hsn : 0 < q.square_norm :=
    lt_of_le_of_ne (QLib.Quaternion.square_norm_nonneg q) (Ne.symm hsn0)
  have hnpos : 0 < q.norm := Real.sqrt_pos.mpr hsn
  have hmul : q.norm * q.norm = q.qr * q.qr + q.qi * q.qi + q.qj * q.qj + q.qk * q.qk :=
    Real.mul_self_sqrt (le_of_lt hsn)
  have hsq : (q.normalized).square_norm = 1 := by
    simp only [QLib.Quaternion.normalized, QLib.Quaternion.square_norm]
    field_simp
    linear_combination -hmul
  have hone : q.normalized.norm = 1 := by
    show Real.sqrt (q.normalized).square_norm = 1
    rw [hsq, Real.sqrt_one]
  refine ⟨rfl, hone, ?_⟩
  rw [hone]
  norm_num [QLib.DEFAULT_TOLERANCE]

/-- Witness for claim C4: the theorem applied at the quaternion (3, 0, 4, 0),
whose norm is 5, gives a normalized quaternion of norm exactly 1. -/
theorem normalized_norm_one_c4_witness :
    ¬((3 : ℝ) = 0 ∧ (0 : ℝ) = 0 ∧ (4 : ℝ) = 0 ∧ (0 : ℝ) = 0) ∧
    QLib.Quaternion.norm (QLib.Quaternion.normalized ⟨3, 0, 4, 0⟩) = 1 :=
  ⟨by norm_num, (normalized_norm_one_c4 ⟨3, 0, 4, 0⟩ (by norm_num)).2.1⟩

/-- Counterexample to claim C4 as stated: the claim says the norm of a
normalized quaternion is never exactly 1, but for the quaternion (1, 0, 0, 0)
every floating-point operation involved is exact and the result is exactly 1,
as the F64 model shows. -/
theorem normalized_norm_exactly_one_c4_counterexample :
    FPModel.norm (FPModel.normalized ⟨F64.fin 1, F64.fin 0, F64.fin 0, F64.fin 0⟩) =
      F64.fin 1 := by
  norm_num [FPModel.norm, FPModel.normalized, FPModel.square_norm,
    F64.mul, F64.add, F64.sqrt, F64.div]
